import Mathlib

/-!
Shallow embedding of `env.go` (package env): a utility binding process
environment variables to the fields of a Go struct.

Go machine values of kind float64 and time.Time, together with their
parsers `strconv.ParseFloat(s, 64)` and `time.Parse(layout, s)`, are
abstracted as type parameters `F`, `T` and a `Parsers` record (their
bit-exact behaviour is floating-point / calendar arithmetic and plays no
role in the claims).  String, int and bool parsing (`strconv.Atoi`,
`strconv.ParseBool`) and the `env` tag micro-format are embedded
concretely.  The process environment is a function `String → String`:
`os.Getenv` returns `""` both for an absent and for an empty variable,
and the code only ever compares the result against `""`.
-/

namespace Env

/-- FieldErrorCode constant `ENV_VAR_NOT_FOUND` (env.go line 29): `1 << iota`. -/
def ENV_VAR_NOT_FOUND : Nat := 1

/-- FieldErrorCode constant `ENV_VAR_PARSING_ERROR` (env.go line 30). -/
def ENV_VAR_PARSING_ERROR : Nat := 2

/-- FieldErrorCode constant `DEFAULT_VALUE_NOT_SPECIFIED` (env.go line 31). -/
def DEFAULT_VALUE_NOT_SPECIFIED : Nat := 4

/-- FieldErrorCode constant `DEFAULT_VALUE_PARSING_ERROR` (env.go line 32). -/
def DEFAULT_VALUE_PARSING_ERROR : Nat := 8

/-- FieldErrorCode constant `NIL` (env.go line 33). -/
def NIL : Nat := 0

/-- Go struct `FieldError` (env.go lines 37-41): field name, combined
error code, combined error messages. -/
structure FieldError where
  fieldName : String
  errorCode : Nat
  errorMsg : String
  deriving DecidableEq, Repr

/-- The Go zero value `FieldError{}`. -/
def FieldError.nil : FieldError := ⟨"", 0, ""⟩

/-- Body of `func (e FieldError) AddError(errorCode, errorMsg)` (env.go
lines 43-46): the update performed on the receiver — arithmetic `+` on the
code, the new message prepended with a blank line. -/
def FieldError.addErrorBody (e : FieldError) (errorCode : Nat) (errorMsg : String) :
    FieldError :=
  ⟨e.fieldName, e.errorCode + errorCode, errorMsg ++ "\n\n" ++ e.errorMsg⟩

/-- Caller-visible effect of the call `e.AddError(code, msg)`: `AddError`
has a VALUE receiver (env.go line 43), so `addErrorBody` is applied to a
copy of `e` that is then discarded — the caller's `e` is unchanged. -/
def FieldError.addError (e : FieldError) (errorCode : Nat) (errorMsg : String) :
    FieldError :=
  let _ := e.addErrorBody errorCode errorMsg
  e

/-- Go struct `StructError` (env.go lines 53-56): the aggregate error of a
whole-structure load. -/
structure StructError where
  fieldErrors : List FieldError
  errorMsg : String
  deriving DecidableEq, Repr

/-- A Go value of one of the field kinds the binder can encounter.  `F`
stands in for float64 and `T` for time.Time; `vother` is a value of any
other (unsupported) field kind, e.g. a nested struct, a slice or a map. -/
inductive GoValue (F T : Type) where
  | vstr (s : String)
  | vint (n : Int)
  | vfloat (f : F)
  | vbool (b : Bool)
  | vtime (t : T)
  | vother
  deriving DecidableEq, Repr

/-- The two parsers kept abstract: `strconv.ParseFloat(s, 64)` and
`time.Parse(layout, value)`.  `none` stands for a non-nil Go error. -/
structure Parsers (F T : Type) where
  parseFloat : String → Option F
  parseTime : String → String → Option T

variable {F T : Type}

/-- Go struct `fieldData` (env.go lines 18-24).  `field` is the
reflect.Value of the target field; `isValid` and `canSet` embed the
reflection predicates `field.IsValid()` and `field.CanSet()` of that
value. -/
structure FieldData (F T : Type) where
  envVarName : String
  defaultVal : String
  strVal : String
  timeLayout : String
  field : GoValue F T
  isValid : Bool
  canSet : Bool
  deriving DecidableEq, Repr

/-- The strVal update of env.go line 173:
`_fieldData.strVal = os.Getenv(_fieldData.envVarName)`. -/
def FieldData.withStrVal (fd : FieldData F T) (s : String) : FieldData F T :=
  { fd with strVal := s }

/-- Base-10 digit loop of `strconv.ParseInt`: accumulates the value,
`none` on the first non-digit. -/
def digitsToNatAux : List Char → Nat → Option Nat
  | [], acc => some acc
  | c :: cs, acc =>
    if '0' ≤ c ∧ c ≤ '9' then digitsToNatAux cs (acc * 10 + (c.toNat - 48))
    else none

/-- Digits-and-range part of `strconv.Atoi` after the sign: `none` on an
empty digit string, a non-digit, or a value outside int64 range. -/
def goAtoiCore (neg : Bool) : List Char → Option Int
  | [] => none
  | cs =>
    match digitsToNatAux cs 0 with
    | none => none
    | some n =>
      if neg then (if n ≤ 2 ^ 63 then some (-(n : Int)) else none)
      else (if n ≤ 2 ^ 63 - 1 then some ((n : Int)) else none)

/-- `strconv.Atoi(s)` (= `ParseInt(s, 10, 0)` with 64-bit int): optional
sign, base-10 digits, int64 range check.  `none` is a non-nil error
(syntax or range) — `setIntField` never assigns in that case. -/
def goAtoi (s : String) : Option Int :=
  match s.data with
  | '+' :: cs => goAtoiCore false cs
  | '-' :: cs => goAtoiCore true cs
  | cs => goAtoiCore false cs

/-- `strconv.ParseBool(s)`: the canonical true/false token sets. -/
def goParseBool (s : String) : Option Bool :=
  if s = "1" ∨ s = "t" ∨ s = "T" ∨ s = "true" ∨ s = "TRUE" ∨ s = "True" then
    some true
  else if s = "0" ∨ s = "f" ∨ s = "F" ∨ s = "false" ∨ s = "FALSE" ∨ s = "False" then
    some false
  else none

/-- `setStrField` (env.go lines 199-202): identity conversion, never
fails.  A set function returns `some v` when the Go original parses
successfully and assigns `v` to the field, `none` when it returns the
parse error without assigning. -/
def setStrField (_fd : FieldData F T) (valueToSet : String) : Option (GoValue F T) :=
  some (GoValue.vstr valueToSet)

/-- `setIntField` (env.go lines 208-215): `strconv.Atoi`, assign only on
success. -/
def setIntField (_fd : FieldData F T) (valueToSet : String) : Option (GoValue F T) :=
  (goAtoi valueToSet).map GoValue.vint

/-- `setFloatField` (env.go lines 221-228): `strconv.ParseFloat(s, 64)`,
assign only on success. -/
def setFloatField (P : Parsers F T) (_fd : FieldData F T) (valueToSet : String) :
    Option (GoValue F T) :=
  (P.parseFloat valueToSet).map GoValue.vfloat

/-- `setBoolField` (env.go lines 234-241): `strconv.ParseBool`, assign
only on success. -/
def setBoolField (_fd : FieldData F T) (valueToSet : String) : Option (GoValue F T) :=
  (goParseBool valueToSet).map GoValue.vbool

/-- `setTimeField` (env.go lines 247-254): `time.Parse(timeLayout, s)`,
assign only on success. -/
def setTimeField (P : Parsers F T) (fd : FieldData F T) (valueToSet : String) :
    Option (GoValue F T) :=
  (P.parseTime fd.timeLayout valueToSet).map GoValue.vtime

/-- env.go lines 185-194: the default-value half of `setField`.  `fe` is
the field error accumulated so far (always `FieldError.nil` in fact,
because `AddError` mutates a discarded copy).  On a parse failure or a
missing default the field keeps its current value `fd.field`. -/
def setFieldDefault (fd : FieldData F T) (fe : FieldError)
    (setFunc : FieldData F T → String → Option (GoValue F T)) :
    GoValue F T × FieldError :=
  if fd.defaultVal ≠ "" then
    match setFunc fd fd.defaultVal with
    | some v => (v, fe)
    | none =>
      (fd.field,
        fe.addError DEFAULT_VALUE_PARSING_ERROR
          "Error while parsing the default value. Ignoring the field...")
  else
    (fd.field,
      fe.addError DEFAULT_VALUE_NOT_SPECIFIED
        "Default value not specified. Ignoring the field.")

/-- env.go lines 174-194: body of `setField` once `strVal` holds the
environment lookup.  The messages passed to `addError` elide the trailing
`err.Error()` text of the underlying parser, which `AddError` discards
anyway (value receiver). -/
def setFieldBody (fd : FieldData F T)
    (setFunc : FieldData F T → String → Option (GoValue F T)) :
    GoValue F T × FieldError :=
  if fd.strVal ≠ "" then
    match setFunc fd fd.strVal with
    | some v => (v, FieldError.nil)
    | none =>
      setFieldDefault fd
        (FieldError.nil.addError ENV_VAR_PARSING_ERROR
          "Error parsing env variable.Trying to set default value...")
        setFunc
  else
    setFieldDefault fd
      (FieldError.nil.addError ENV_VAR_NOT_FOUND
        "Env Variable not found. Trying to set default value")
      setFunc

/-- `setField` (env.go lines 172-195): refresh `strVal` from the
environment (line 173), then resolve environment value / default. -/
def setField (env : String → String) (fd : FieldData F T)
    (setFunc : FieldData F T → String → Option (GoValue F T)) :
    GoValue F T × FieldError :=
  setFieldBody (fd.withStrVal (env fd.envVarName)) setFunc

/-- `validateAndSet` (env.go lines 149-168): dispatch on the field's
reflect.Kind; a time.Time field (Kind Struct) is handled after the switch
and only when `withTime`; any other kind falls through untouched with the
zero `FieldError`. -/
def validateAndSet (P : Parsers F T) (env : String → String)
    (fd : FieldData F T) (withTime : Bool) : GoValue F T × FieldError :=
  if fd.isValid then
    if fd.canSet then
      match fd.field with
      | GoValue.vstr _ => setField env fd setStrField
      | GoValue.vint _ => setField env fd setIntField
      | GoValue.vfloat _ => setField env fd (setFloatField P)
      | GoValue.vbool _ => setField env fd setBoolField
      | GoValue.vtime _ =>
        if withTime then setField env fd (setTimeField P)
        else (fd.field, FieldError.nil)
      | GoValue.vother => (fd.field, FieldError.nil)
    else (fd.field, FieldError.nil)
  else (fd.field, FieldError.nil)

/-- The set function `validateAndSet` selects for a field value of the
given kind (`none` when the kind is unsupported and the field falls
through untouched). -/
def kindSetFunc (P : Parsers F T) (v : GoValue F T) (withTime : Bool) :
    Option (FieldData F T → String → Option (GoValue F T)) :=
  match v with
  | GoValue.vstr _ => some setStrField
  | GoValue.vint _ => some setIntField
  | GoValue.vfloat _ => some (setFloatField P)
  | GoValue.vbool _ => some setBoolField
  | GoValue.vtime _ => if withTime then some (setTimeField P) else none
  | GoValue.vother => none

/-- Split at the first comma: `([], none)` shape for no comma.  Helper
for `goSplitN2`. -/
def splitFirstComma : List Char → List Char × Option (List Char)
  | [] => ([], none)
  | c :: cs =>
    if c = ',' then ([], some cs)
    else
      match splitFirstComma cs with
      | (l, r) => (c :: l, r)

/-- `strings.SplitN(s, ",", 2)` (env.go line 116 with `SEP = ","`): at
most two pieces, split at the first comma; the remainder keeps any
further commas.  Always returns at least one element. -/
def goSplitN2 (s : String) : List String :=
  match splitFirstComma s.data with
  | (l, none) => [String.mk l]
  | (l, some r) => [String.mk l, String.mk r]

/-- One field of the target struct as reflection presents it inside
`loadEnvVars`: Go field name, the `env` and `timeLayout` tag values
(`Tag.Get` returns `""` when the tag is absent), whether the field is
exported (`value.Field(i).CanSet()`), and its current value. -/
structure StructField (F T : Type) where
  name : String
  envTag : String
  timeTag : String
  exported : Bool
  value : GoValue F T
  deriving DecidableEq, Repr

/-- The dereferenced target of `loadEnvVars`
(`reflect.ValueOf(structPtr).Elem()`): either a struct with its fields,
or a value of any other kind (env.go line 110 guard). -/
inductive Target (F T : Type) where
  | struct (fields : List (StructField F T))
  | nonStruct (v : GoValue F T)
  deriving DecidableEq, Repr

/-- env.go lines 116-130: the per-field descriptor built by the
`loadEnvVars` loop body — tag split at the first comma into name and
default, implicit field name when the tag name is empty and `force` is
set, time layout tag only when `withTime`.  A struct field obtained by
`value.Field(i)` is always valid, and settable iff exported. -/
def mkFieldData (force withTime : Bool) (f : StructField F T) : FieldData F T :=
  let envVar := goSplitN2 f.envTag
  let name0 := match envVar with
    | [] => ""
    | x :: _ => x
  let dflt := match envVar with
    | _ :: d :: _ => d
    | _ => ""
  let name := if name0 = "" ∧ force then f.name else name0
  let layout := if withTime then f.timeTag else ""
  ⟨name, dflt, "", layout, f.value, true, f.exported⟩

/-- env.go lines 116-137: one iteration of the `loadEnvVars` loop —
build the field data, skip when no environment variable name resolves,
otherwise validate-and-set and record a field error (tagged with the Go
field name) only when it differs from the zero `FieldError`. -/
def processField (P : Parsers F T) (env : String → String)
    (force withTime : Bool) (f : StructField F T) :
    StructField F T × Option FieldError :=
  let fd := mkFieldData force withTime f
  if fd.envVarName ≠ "" then
    match validateAndSet P env fd withTime with
    | (v, fe) =>
      if fe ≠ FieldError.nil then
        ({ f with value := v }, some { fe with fieldName := f.name })
      else
        ({ f with value := v }, none)
  else (f, none)

/-- The field list of a struct after `loadEnvVars` processed every
field. -/
def loadStructFields (P : Parsers F T) (env : String → String)
    (force withTime : Bool) (fs : List (StructField F T)) :
    List (StructField F T) :=
  (fs.map (processField P env force withTime)).map Prod.fst

/-- `loadEnvVars` (env.go lines 107-144): nothing happens unless the
dereferenced target is a struct; every field is attempted (no
short-circuit); the aggregate error is returned iff at least one field
error was appended (`err.FieldErrors != nil`), else nil (`none`). -/
def loadEnvVars (P : Parsers F T) (env : String → String)
    (t : Target F T) (force withTime : Bool) :
    Target F T × Option StructError :=
  match t with
  | Target.nonStruct v => (Target.nonStruct v, none)
  | Target.struct fs =>
    let results := fs.map (processField P env force withTime)
    let errs := results.filterMap Prod.snd
    (Target.struct (results.map Prod.fst),
      if errs = [] then none else some ⟨errs, ""⟩)

/-- `loadEnvVar` (env.go lines 97-105): single-field load through a
pointer; the dereferenced value is valid and settable; the field error is
returned (tagged with the variable name) only when it differs from the
zero `FieldError`, else nil. -/
def loadEnvVar (P : Parsers F T) (env : String → String)
    (target : GoValue F T) (envVarName defaultVal : String)
    (withTime : Bool) (timeLayout : String) :
    GoValue F T × Option FieldError :=
  let fd : FieldData F T := ⟨envVarName, defaultVal, "", timeLayout, target, true, true⟩
  match validateAndSet P env fd withTime with
  | (v, fe) =>
    if fe ≠ FieldError.nil then (v, some { fe with fieldName := envVarName })
    else (v, none)

/-- `LoadEnvVars` (env.go line 73). -/
def LoadEnvVars (P : Parsers F T) (env : String → String) (t : Target F T) :
    Target F T × Option StructError :=
  loadEnvVars P env t false false

/-- `LoadEnvVarsF` (env.go line 77). -/
def LoadEnvVarsF (P : Parsers F T) (env : String → String) (t : Target F T) :
    Target F T × Option StructError :=
  loadEnvVars P env t true false

/-- `LoadEnvVarsT` (env.go line 81). -/
def LoadEnvVarsT (P : Parsers F T) (env : String → String) (t : Target F T) :
    Target F T × Option StructError :=
  loadEnvVars P env t false true

/-- `LoadEnvVarsTF` (env.go line 85). -/
def LoadEnvVarsTF (P : Parsers F T) (env : String → String) (t : Target F T) :
    Target F T × Option StructError :=
  loadEnvVars P env t true true

/-- `LoadEnvVar` (env.go line 89). -/
def LoadEnvVar (P : Parsers F T) (env : String → String)
    (target : GoValue F T) (envVarName defaultVal : String) :
    GoValue F T × Option FieldError :=
  loadEnvVar P env target envVarName defaultVal false ""

/-- `LoadEnvVarT` (env.go line 93). -/
def LoadEnvVarT (P : Parsers F T) (env : String → String)
    (target : GoValue F T) (envVarName defaultVal : String)
    (timeLayout : String) : GoValue F T × Option FieldError :=
  loadEnvVar P env target envVarName defaultVal true timeLayout

/-- Trivial instantiation of the abstract float64 / time.Time parsers,
used for concrete runs on fields of the concretely embedded kinds. -/
def P0 : Parsers Unit Unit := ⟨fun _ => none, fun _ _ => none⟩

/-- A concrete environment fixture, after the test setup of env_test.go:
`TEST_1=VALUE_1`, `TEST_6=6`, plus an unparsable `TEST_BAD=abc`;
everything else (in particular `TEST_7` and `TEST_ABSENT`) is absent. -/
def envTest : String → String := fun n =>
  if n = "TEST_1" then "VALUE_1"
  else if n = "TEST_6" then "6"
  else if n = "TEST_BAD" then "abc"
  else ""

/-- An exported int field bound to the present, parsable `TEST_6`. -/
def fld6 : StructField Unit Unit := ⟨"Var6", "TEST_6", "", true, GoValue.vint 0⟩

/-- An exported int field bound to the unparsable `TEST_BAD`, no
default. -/
def fldBad : StructField Unit Unit := ⟨"Var1", "TEST_BAD", "", true, GoValue.vint 0⟩

/-- An exported int field bound to the absent `TEST_ABSENT`, no
default. -/
def fldAbsent : StructField Unit Unit := ⟨"Var2", "TEST_ABSENT", "", true, GoValue.vint 0⟩

/-- An unexported string field whose tag names the present `TEST_1`. -/
def fldUnexported : StructField Unit Unit := ⟨"var1", "TEST_1", "", false, GoValue.vstr ""⟩

/-- An exported string field whose tag default contains a further
comma. -/
def fldTag : StructField Unit Unit := ⟨"VarTag", "A,B,C", "", true, GoValue.vstr ""⟩

/-! ## Basic lemmas about the embedding -/

theorem addError_eq (e : FieldError) (c : Nat) (m : String) :
    e.addError c m = e := rfl

@[simp]
theorem withStrVal_strVal (fd : FieldData F T) (s : String) :
    (fd.withStrVal s).strVal = s := rfl

@[simp]
theorem withStrVal_envVarName (fd : FieldData F T) (s : String) :
    (fd.withStrVal s).envVarName = fd.envVarName := rfl

@[simp]
theorem withStrVal_defaultVal (fd : FieldData F T) (s : String) :
    (fd.withStrVal s).defaultVal = fd.defaultVal := rfl

@[simp]
theorem withStrVal_field (fd : FieldData F T) (s : String) :
    (fd.withStrVal s).field = fd.field := rfl

theorem setFieldDefault_snd (fd : FieldData F T) (fe : FieldError)
    (sf : FieldData F T → String → Option (GoValue F T)) :
    (setFieldDefault fd fe sf).snd = fe := by
  unfold setFieldDefault
  split
  · cases h : sf fd fd.defaultVal <;> simp [h, addError_eq]
  · simp [addError_eq]

theorem setFieldBody_snd (fd : FieldData F T)
    (sf : FieldData F T → String → Option (GoValue F T)) :
    (setFieldBody fd sf).snd = FieldError.nil := by
  unfold setFieldBody
  split
  · cases h : sf fd fd.strVal <;> simp [h, setFieldDefault_snd, addError_eq]
  · simp [setFieldDefault_snd, addError_eq]

theorem setField_snd (env : String → String) (fd : FieldData F T)
    (sf : FieldData F T → String → Option (GoValue F T)) :
    (setField env fd sf).snd = FieldError.nil := by
  unfold setField
  exact setFieldBody_snd _ _

theorem validateAndSet_snd (P : Parsers F T) (env : String → String)
    (fd : FieldData F T) (withTime : Bool) :
    (validateAndSet P env fd withTime).snd = FieldError.nil := by
  unfold validateAndSet
  split
  · split
    · cases h : fd.field <;> simp [h, setField_snd]
      split <;> simp [setField_snd]
    · rfl
  · rfl

theorem processField_snd (P : Parsers F T) (env : String → String)
    (force withTime : Bool) (f : StructField F T) :
    (processField P env force withTime f).snd = none := by
  by_cases hn : (mkFieldData force withTime f).envVarName = ""
  · simp [processField, hn]
  · cases hv : validateAndSet P env (mkFieldData force withTime f) withTime with
    | mk v fe =>
      have h := validateAndSet_snd P env (mkFieldData force withTime f) withTime
      rw [hv] at h
      simp only at h
      subst h
      simp [processField, hn, hv]

theorem loadEnvVars_snd (P : Parsers F T) (env : String → String)
    (t : Target F T) (force withTime : Bool) :
    (loadEnvVars P env t force withTime).snd = none := by
  unfold loadEnvVars
  cases t with
  | nonStruct v => rfl
  | struct fs =>
    have herrs : (fs.map (processField P env force withTime)).filterMap Prod.snd = [] := by
      rw [List.filterMap_map]
      rw [List.filterMap_eq_nil_iff]
      intro f _
      exact processField_snd P env force withTime f
    simp [herrs]

theorem loadEnvVar_snd (P : Parsers F T) (env : String → String)
    (target : GoValue F T) (envVarName defaultVal : String)
    (withTime : Bool) (timeLayout : String) :
    (loadEnvVar P env target envVarName defaultVal withTime timeLayout).snd = none := by
  unfold loadEnvVar
  simp [validateAndSet_snd]

@[simp]
theorem mkFieldData_field (force withTime : Bool) (f : StructField F T) :
    (mkFieldData force withTime f).field = f.value := rfl

@[simp]
theorem mkFieldData_isValid (force withTime : Bool) (f : StructField F T) :
    (mkFieldData force withTime f).isValid = true := rfl

@[simp]
theorem mkFieldData_canSet (force withTime : Bool) (f : StructField F T) :
    (mkFieldData force withTime f).canSet = f.exported := rfl

@[simp]
theorem structField_eta (f : StructField F T) :
    StructField.mk f.name f.envTag f.timeTag f.exported f.value = f := rfl

theorem setField_env_ok (env : String → String) (fd : FieldData F T)
    (sf : FieldData F T → String → Option (GoValue F T)) (v : GoValue F T)
    (h1 : env fd.envVarName ≠ "")
    (h2 : sf (fd.withStrVal (env fd.envVarName)) (env fd.envVarName) = some v) :
    setField env fd sf = (v, FieldError.nil) := by
  unfold setField setFieldBody
  simp [h1, h2]

theorem setField_default_ok (env : String → String) (fd : FieldData F T)
    (sf : FieldData F T → String → Option (GoValue F T)) (v : GoValue F T)
    (h1 : env fd.envVarName = "" ∨
      sf (fd.withStrVal (env fd.envVarName)) (env fd.envVarName) = none)
    (h2 : fd.defaultVal ≠ "")
    (h3 : sf (fd.withStrVal (env fd.envVarName)) fd.defaultVal = some v) :
    setField env fd sf = (v, FieldError.nil) := by
  unfold setField setFieldBody setFieldDefault
  rcases h1 with h1 | h1
  · rw [h1] at h3
    simp [h1, h2, h3, addError_eq]
  · by_cases he : env fd.envVarName = ""
    · rw [he] at h3
      simp [he, h2, h3, addError_eq]
    · simp [he, h1, h2, h3, addError_eq]

theorem setFieldDefault_fst_cases (fd : FieldData F T) (fe : FieldError)
    (sf : FieldData F T → String → Option (GoValue F T)) :
    (setFieldDefault fd fe sf).fst = fd.field ∨
    sf fd fd.defaultVal = some ((setFieldDefault fd fe sf).fst) := by
  unfold setFieldDefault
  split
  · cases h : sf fd fd.defaultVal with
    | none => simp [h]
    | some v => simp [h]
  · simp

theorem setFieldBody_fst_cases (fd : FieldData F T)
    (sf : FieldData F T → String → Option (GoValue F T)) :
    (setFieldBody fd sf).fst = fd.field ∨
    sf fd fd.strVal = some ((setFieldBody fd sf).fst) ∨
    sf fd fd.defaultVal = some ((setFieldBody fd sf).fst) := by
  unfold setFieldBody
  split
  · cases h : sf fd fd.strVal with
    | none =>
      simp only [h]
      rcases setFieldDefault_fst_cases fd
          (FieldError.nil.addError ENV_VAR_PARSING_ERROR
            "Error parsing env variable.Trying to set default value...") sf with
        h2 | h2
      · exact Or.inl h2
      · exact Or.inr (Or.inr h2)
    | some v => simp [h]
  · rcases setFieldDefault_fst_cases fd
        (FieldError.nil.addError ENV_VAR_NOT_FOUND
          "Env Variable not found. Trying to set default value") sf with
      h2 | h2
    · exact Or.inl h2
    · exact Or.inr (Or.inr h2)

theorem setField_fst_cases (env : String → String) (fd : FieldData F T)
    (sf : FieldData F T → String → Option (GoValue F T)) :
    (setField env fd sf).fst = fd.field ∨
    ∃ s, (s = env fd.envVarName ∨ s = fd.defaultVal) ∧
      sf (fd.withStrVal (env fd.envVarName)) s = some ((setField env fd sf).fst) := by
  have h := setFieldBody_fst_cases (fd.withStrVal (env fd.envVarName)) sf
  unfold setField
  rcases h with h | h | h
  · exact Or.inl (by simpa using h)
  · exact Or.inr ⟨env fd.envVarName, Or.inl rfl, by simpa using h⟩
  · exact Or.inr ⟨fd.defaultVal, Or.inr rfl, by simpa using h⟩

theorem validateAndSet_eq_setField (P : Parsers F T) (env : String → String)
    (fd : FieldData F T) (withTime : Bool)
    (sf : FieldData F T → String → Option (GoValue F T))
    (hv : fd.isValid = true) (hc : fd.canSet = true)
    (hk : kindSetFunc P fd.field withTime = some sf) :
    validateAndSet P env fd withTime = setField env fd sf := by
  unfold validateAndSet
  unfold kindSetFunc at hk
  rw [hv, hc]
  simp only [if_true]
  cases hf : fd.field <;> rw [hf] at hk <;> cases withTime <;> simp_all

theorem validateAndSet_fst_cases (P : Parsers F T) (env : String → String)
    (fd : FieldData F T) (withTime : Bool) :
    (validateAndSet P env fd withTime).fst = fd.field ∨
    ∃ sf s, kindSetFunc P fd.field withTime = some sf ∧
      (s = env fd.envVarName ∨ s = fd.defaultVal) ∧
      sf (fd.withStrVal (env fd.envVarName)) s =
        some ((validateAndSet P env fd withTime).fst) := by
  by_cases hv : fd.isValid = true
  · by_cases hc : fd.canSet = true
    · cases hk : kindSetFunc P fd.field withTime with
      | none =>
        left
        unfold validateAndSet
        unfold kindSetFunc at hk
        rw [hv, hc]
        simp only [if_true]
        cases hf : fd.field <;> rw [hf] at hk <;> cases withTime <;> simp_all
      | some sf =>
        have he := validateAndSet_eq_setField P env fd withTime sf hv hc hk
        rw [he]
        rcases setField_fst_cases env fd sf with h | ⟨s, hs, hsf⟩
        · exact Or.inl h
        · exact Or.inr ⟨sf, s, rfl, hs, hsf⟩
    · left
      unfold validateAndSet
      simp [hv, hc]
  · left
    unfold validateAndSet
    simp [hv]

theorem processField_ok (P : Parsers F T) (env : String → String)
    (force withTime : Bool) (f : StructField F T) (v : GoValue F T)
    (hres : validateAndSet P env (mkFieldData force withTime f) withTime =
      (v, FieldError.nil))
    (hn : (mkFieldData force withTime f).envVarName ≠ "") :
    processField P env force withTime f = ({ f with value := v }, none) := by
  unfold processField
  simp [hn, hres]

theorem processField_value_cases (P : Parsers F T) (env : String → String)
    (force withTime : Bool) (f : StructField F T) :
    (processField P env force withTime f).fst.value = f.value ∨
    ∃ sf s, kindSetFunc P f.value withTime = some sf ∧
      (s = env (mkFieldData force withTime f).envVarName ∨
        s = (mkFieldData force withTime f).defaultVal) ∧
      sf ((mkFieldData force withTime f).withStrVal
          (env (mkFieldData force withTime f).envVarName)) s =
        some ((processField P env force withTime f).fst.value) := by
  by_cases hn : (mkFieldData force withTime f).envVarName = ""
  · left
    simp [processField, hn]
  · have h := validateAndSet_fst_cases P env (mkFieldData force withTime f) withTime
    cases hres : validateAndSet P env (mkFieldData force withTime f) withTime with
    | mk v fe =>
      have hfe : fe = FieldError.nil := by
        have h2 := validateAndSet_snd P env (mkFieldData force withTime f) withTime
        rw [hres] at h2
        exact h2
      subst hfe
      rw [hres] at h
      have hpf := processField_ok P env force withTime f v hres hn
      rw [hpf]
      simp only [mkFieldData_field] at h
      rcases h with h | ⟨sf, s, h1, h2, h3⟩
      · left
        simpa using h
      · right
        exact ⟨sf, s, h1, h2, by simpa using h3⟩

theorem loadStructFields_length (P : Parsers F T) (env : String → String)
    (force withTime : Bool) (fs : List (StructField F T)) :
    (loadStructFields P env force withTime fs).length = fs.length := by
  simp [loadStructFields]

theorem loadStructFields_get (P : Parsers F T) (env : String → String)
    (force withTime : Bool) (fs : List (StructField F T)) (i : Nat)
    (hi : i < fs.length) (hj : i < (loadStructFields P env force withTime fs).length) :
    (loadStructFields P env force withTime fs).get ⟨i, hj⟩ =
      (processField P env force withTime (fs.get ⟨i, hi⟩)).fst := by
  simp [loadStructFields, List.get_eq_getElem, List.getElem_map]

theorem loadEnvVars_struct_fst (P : Parsers F T) (env : String → String)
    (fs : List (StructField F T)) (force withTime : Bool) :
    (loadEnvVars P env (Target.struct fs) force withTime).fst =
      Target.struct (loadStructFields P env force withTime fs) := rfl

theorem loadEnvVar_fst (P : Parsers F T) (env : String → String)
    (target : GoValue F T) (envVarName defaultVal : String)
    (withTime : Bool) (timeLayout : String) :
    (loadEnvVar P env target envVarName defaultVal withTime timeLayout).fst =
      (validateAndSet P env
        ⟨envVarName, defaultVal, "", timeLayout, target, true, true⟩ withTime).fst := by
  unfold loadEnvVar
  simp [validateAndSet_snd]

theorem splitFirstComma_append (a b : List Char) (h : ',' ∉ a) :
    splitFirstComma (a ++ ',' :: b) = (a, some b) := by
  induction a with
  | nil => simp [splitFirstComma]
  | cons c cs ih =>
    simp only [List.mem_cons, not_or] at h
    obtain ⟨h1, h2⟩ := h
    have h1' : ¬(c = ',') := fun hc => h1 hc.symm
    simp [splitFirstComma, h1', ih h2]

theorem goSplitN2_append (a b : List Char) (h : ',' ∉ a) :
    goSplitN2 (String.mk (a ++ ',' :: b)) = [String.mk a, String.mk b] := by
  unfold goSplitN2
  rw [show (String.mk (a ++ ',' :: b)).data = a ++ ',' :: b from rfl]
  rw [splitFirstComma_append a b h]

/-! ## Claim theorems -/

/-- C9: For every input, every public entry point (`LoadEnvVars`,
`LoadEnvVarsF`, `LoadEnvVarsT`, `LoadEnvVarsTF`, `LoadEnvVar`,
`LoadEnvVarT`) returns nil: `AddError` has a value receiver, so its
mutations are discarded, `setField` always returns the zero `FieldError`,
no field error is ever recorded, and no call ever reports failure. -/
theorem c9_all_entry_points_return_nil (P : Parsers F T) (env : String → String) :
    (∀ (fd : FieldData F T) (sf : FieldData F T → String → Option (GoValue F T)),
      (setField env fd sf).snd = FieldError.nil) ∧
    (∀ t : Target F T, (LoadEnvVars P env t).snd = none) ∧
    (∀ t : Target F T, (LoadEnvVarsF P env t).snd = none) ∧
    (∀ t : Target F T, (LoadEnvVarsT P env t).snd = none) ∧
    (∀ t : Target F T, (LoadEnvVarsTF P env t).snd = none) ∧
    (∀ (target : GoValue F T) (n d : String), (LoadEnvVar P env target n d).snd = none) ∧
    (∀ (target : GoValue F T) (n d l : String), (LoadEnvVarT P env target n d l).snd = none) :=
  ⟨fun fd sf => setField_snd env fd sf,
   fun t => loadEnvVars_snd P env t false false,
   fun t => loadEnvVars_snd P env t true false,
   fun t => loadEnvVars_snd P env t false true,
   fun t => loadEnvVars_snd P env t true true,
   fun target n d => loadEnvVar_snd P env target n d false "",
   fun target n d l => loadEnvVar_snd P env target n d true l⟩

/-- C10: If the target passed to a whole-structure load does not
dereference to a struct, the load performs no field processing, modifies
nothing, and returns nil rather than an error. -/
theorem c10_non_struct_target_untouched_nil (P : Parsers F T)
    (env : String → String) (v : GoValue F T) (force withTime : Bool) :
    loadEnvVars P env (Target.nonStruct v) force withTime =
      (Target.nonStruct v, none) := rfl

/-- C1 (code behaviour at the failing input): an int field whose
environment variable `TEST_ABSENT` is absent and whose binding has no
default produces NO error — both the single-field call and the
whole-structure load return nil, the field keeping its zero value —
because `AddError`'s value receiver discards the
`DEFAULT_VALUE_NOT_SPECIFIED` bit the claim (and the code's own doc
comments) promise. -/
theorem c1_absent_no_default_returns_nil :
    LoadEnvVar P0 envTest (GoValue.vint 0) "TEST_ABSENT" "" =
      (GoValue.vint 0, none) ∧
    LoadEnvVars P0 envTest (Target.struct [fldAbsent]) =
      (Target.struct [fldAbsent], none) := by
  constructor <;> rfl

/-- C2 (code behaviour at the failing input): an int field whose
environment variable `TEST_BAD=abc` fails integer conversion, with the
default either unspecified or also unparsable, produces NO error (nil on
both entry points, field unchanged) — the claimed
`ENV_VAR_PARSING_ERROR` + `DEFAULT_VALUE_NOT_SPECIFIED` /
`DEFAULT_VALUE_PARSING_ERROR` bitmask is discarded by `AddError`'s value
receiver. -/
theorem c2_unparsable_no_usable_default_returns_nil :
    LoadEnvVar P0 envTest (GoValue.vint 0) "TEST_BAD" "" =
      (GoValue.vint 0, none) ∧
    LoadEnvVar P0 envTest (GoValue.vint 0) "TEST_BAD" "xyz" =
      (GoValue.vint 0, none) ∧
    LoadEnvVars P0 envTest (Target.struct [fldBad]) =
      (Target.struct [fldBad], none) := by
  refine ⟨?_, ?_, ?_⟩ <;> rfl

/-- C3: For every field of a supported kind whose environment variable is
present, non-empty, and parses successfully for that kind, after the load
(single-field or whole-structure) the field holds exactly that parsed
value, regardless of any configured default, and no error is reported for
that field. -/
theorem c3_parsed_env_value_wins (P : Parsers F T) (env : String → String) :
    (∀ (target : GoValue F T) (name dflt : String) (wt : Bool) (layout : String)
        (sf : FieldData F T → String → Option (GoValue F T)) (v : GoValue F T),
      kindSetFunc P target wt = some sf →
      env name ≠ "" →
      sf (FieldData.mk name dflt (env name) layout target true true) (env name) =
        some v →
      loadEnvVar P env target name dflt wt layout = (v, none)) ∧
    (∀ (force wt : Bool) (fs : List (StructField F T)) (i : Nat)
        (hi : i < fs.length)
        (sf : FieldData F T → String → Option (GoValue F T)) (v : GoValue F T),
      kindSetFunc P (fs.get ⟨i, hi⟩).value wt = some sf →
      (fs.get ⟨i, hi⟩).exported = true →
      (mkFieldData force wt (fs.get ⟨i, hi⟩)).envVarName ≠ "" →
      env (mkFieldData force wt (fs.get ⟨i, hi⟩)).envVarName ≠ "" →
      sf ((mkFieldData force wt (fs.get ⟨i, hi⟩)).withStrVal
            (env (mkFieldData force wt (fs.get ⟨i, hi⟩)).envVarName))
          (env (mkFieldData force wt (fs.get ⟨i, hi⟩)).envVarName) = some v →
      ∀ hj : i < (loadStructFields P env force wt fs).length,
        ((loadStructFields P env force wt fs).get ⟨i, hj⟩).value = v ∧
        (processField P env force wt (fs.get ⟨i, hi⟩)).snd = none) := by
  constructor
  · intro target name dflt wt layout sf v hk henv hparse
    have hva : validateAndSet P env
        ⟨name, dflt, "", layout, target, true, true⟩ wt = (v, FieldError.nil) := by
      rw [validateAndSet_eq_setField P env _ wt sf rfl rfl hk]
      exact setField_env_ok env _ sf v henv hparse
    unfold loadEnvVar
    simp [hva]
  · intro force wt fs i hi sf v hk hexp hname henv hparse hj
    have hkf : kindSetFunc P (mkFieldData force wt (fs.get ⟨i, hi⟩)).field wt =
        some sf := by
      rw [mkFieldData_field]
      exact hk
    have hva : validateAndSet P env (mkFieldData force wt (fs.get ⟨i, hi⟩)) wt =
        (v, FieldError.nil) := by
      rw [validateAndSet_eq_setField P env _ wt sf rfl (by simpa using hexp) hkf]
      exact setField_env_ok env _ sf v henv hparse
    have hpf := processField_ok P env force wt (fs.get ⟨i, hi⟩) v hva hname
    constructor
    · rw [loadStructFields_get P env force wt fs i hi hj, hpf]
    · rw [hpf]

/-- C3 witness: the int field tagged `TEST_6` with `TEST_6=6` in the
environment loads to 6 with no error. -/
theorem c3_witness :
    ((loadStructFields P0 envTest false false [fld6]).get ⟨0, by decide⟩).value =
      GoValue.vint 6 ∧
    (processField P0 envTest false false fld6).snd = none :=
  (c3_parsed_env_value_wins P0 envTest).2 false false [fld6] 0 (by decide)
    setIntField (GoValue.vint 6) rfl rfl (by decide) (by decide) (by decide)
    (by decide)

/-- C4: For every field whose environment variable is absent or empty (or
present but unparsable) and whose default value is non-empty and parses
successfully, after the load (single-field or whole-structure) the field
holds the parsed default and the operation returns no error for that
field — the fallback is not reported. -/
theorem c4_default_fallback_silent (P : Parsers F T) (env : String → String) :
    (∀ (target : GoValue F T) (name dflt : String) (wt : Bool) (layout : String)
        (sf : FieldData F T → String → Option (GoValue F T)) (v : GoValue F T),
      kindSetFunc P target wt = some sf →
      (env name = "" ∨
        sf (FieldData.mk name dflt (env name) layout target true true) (env name) =
          none) →
      dflt ≠ "" →
      sf (FieldData.mk name dflt (env name) layout target true true) dflt = some v →
      loadEnvVar P env target name dflt wt layout = (v, none)) ∧
    (∀ (force wt : Bool) (fs : List (StructField F T)) (i : Nat)
        (hi : i < fs.length)
        (sf : FieldData F T → String → Option (GoValue F T)) (v : GoValue F T),
      kindSetFunc P (fs.get ⟨i, hi⟩).value wt = some sf →
      (fs.get ⟨i, hi⟩).exported = true →
      (mkFieldData force wt (fs.get ⟨i, hi⟩)).envVarName ≠ "" →
      (env (mkFieldData force wt (fs.get ⟨i, hi⟩)).envVarName = "" ∨
        sf ((mkFieldData force wt (fs.get ⟨i, hi⟩)).withStrVal
              (env (mkFieldData force wt (fs.get ⟨i, hi⟩)).envVarName))
            (env (mkFieldData force wt (fs.get ⟨i, hi⟩)).envVarName) = none) →
      (mkFieldData force wt (fs.get ⟨i, hi⟩)).defaultVal ≠ "" →
      sf ((mkFieldData force wt (fs.get ⟨i, hi⟩)).withStrVal
            (env (mkFieldData force wt (fs.get ⟨i, hi⟩)).envVarName))
          (mkFieldData force wt (fs.get ⟨i, hi⟩)).defaultVal = some v →
      ∀ hj : i < (loadStructFields P env force wt fs).length,
        ((loadStructFields P env force wt fs).get ⟨i, hj⟩).value = v ∧
        (processField P env force wt (fs.get ⟨i, hi⟩)).snd = none) := by
  constructor
  · intro target name dflt wt layout sf v hk habs hd hparse
    have hva : validateAndSet P env
        ⟨name, dflt, "", layout, target, true, true⟩ wt = (v, FieldError.nil) := by
      rw [validateAndSet_eq_setField P env _ wt sf rfl rfl hk]
      exact setField_default_ok env _ sf v habs hd hparse
    unfold loadEnvVar
    simp [hva]
  · intro force wt fs i hi sf v hk hexp hname habs hd hparse hj
    have hkf : kindSetFunc P (mkFieldData force wt (fs.get ⟨i, hi⟩)).field wt =
        some sf := by
      rw [mkFieldData_field]
      exact hk
    have hva : validateAndSet P env (mkFieldData force wt (fs.get ⟨i, hi⟩)) wt =
        (v, FieldError.nil) := by
      rw [validateAndSet_eq_setField P env _ wt sf rfl (by simpa using hexp) hkf]
      exact setField_default_ok env _ sf v habs hd hparse
    have hpf := processField_ok P env force wt (fs.get ⟨i, hi⟩) v hva hname
    constructor
    · rw [loadStructFields_get P env force wt fs i hi hj, hpf]
    · rw [hpf]

/-- C4 witness: the single-field load of an int with absent variable
`TEST_7` and default `"42"` yields 42 with no error. -/
theorem c4_witness :
    loadEnvVar P0 envTest (GoValue.vint 0) "TEST_7" "42" false "" =
      (GoValue.vint 42, none) :=
  (c4_default_fallback_silent P0 envTest).1 (GoValue.vint 0) "TEST_7" "42"
    false "" setIntField (GoValue.vint 42) rfl (Or.inl (by decide)) (by decide)
    (by decide)

/-- C5: Conversion is atomic: a field is assigned only on a fully
successful parse, so after any load (single-field or whole-structure)
each field holds either the parsed environment value, the parsed default
value, or its prior value, never a partially-converted value. -/
theorem c5_conversion_atomic (P : Parsers F T) (env : String → String) :
    (∀ (target : GoValue F T) (name dflt : String) (wt : Bool) (layout : String),
      (loadEnvVar P env target name dflt wt layout).fst = target ∨
      ∃ sf s, kindSetFunc P target wt = some sf ∧
        (s = env name ∨ s = dflt) ∧
        sf (FieldData.mk name dflt (env name) layout target true true) s =
          some ((loadEnvVar P env target name dflt wt layout).fst)) ∧
    (∀ (force wt : Bool) (fs : List (StructField F T)) (i : Nat)
        (hi : i < fs.length)
        (hj : i < (loadStructFields P env force wt fs).length),
      ((loadStructFields P env force wt fs).get ⟨i, hj⟩).value =
        (fs.get ⟨i, hi⟩).value ∨
      ∃ sf s, kindSetFunc P (fs.get ⟨i, hi⟩).value wt = some sf ∧
        (s = env (mkFieldData force wt (fs.get ⟨i, hi⟩)).envVarName ∨
          s = (mkFieldData force wt (fs.get ⟨i, hi⟩)).defaultVal) ∧
        sf ((mkFieldData force wt (fs.get ⟨i, hi⟩)).withStrVal
              (env (mkFieldData force wt (fs.get ⟨i, hi⟩)).envVarName)) s =
          some (((loadStructFields P env force wt fs).get ⟨i, hj⟩).value)) := by
  constructor
  · intro target name dflt wt layout
    have h := validateAndSet_fst_cases P env
      ⟨name, dflt, "", layout, target, true, true⟩ wt
    rw [loadEnvVar_fst P env target name dflt wt layout]
    exact h
  · intro force wt fs i hi hj
    have h := processField_value_cases P env force wt (fs.get ⟨i, hi⟩)
    rw [loadStructFields_get P env force wt fs i hi hj]
    exact h

/-- C5 witness: the atomicity disjunction instantiated at the int field
tagged `TEST_6` under the concrete test environment. -/
theorem c5_witness :
    ((loadStructFields P0 envTest false false [fld6]).get ⟨0, by decide⟩).value =
      fld6.value ∨
    ∃ sf s, kindSetFunc P0 fld6.value false = some sf ∧
      (s = envTest (mkFieldData false false fld6).envVarName ∨
        s = (mkFieldData false false fld6).defaultVal) ∧
      sf ((mkFieldData false false fld6).withStrVal
            (envTest (mkFieldData false false fld6).envVarName)) s =
        some (((loadStructFields P0 envTest false false [fld6]).get
          ⟨0, by decide⟩).value) :=
  (c5_conversion_atomic P0 envTest).2 false false [fld6] 0 (by decide) (by decide)

/-- C6: Unexported (non-settable) fields are never modified regardless of
tag presence, and a structure whose fields are all unexported remains
entirely at its original value after load, the load returning no
error. -/
theorem c6_unexported_never_modified (P : Parsers F T) (env : String → String)
    (force withTime : Bool) :
    (∀ f : StructField F T, f.exported = false →
      processField P env force withTime f = (f, none)) ∧
    (∀ fs : List (StructField F T), (∀ f ∈ fs, f.exported = false) →
      loadEnvVars P env (Target.struct fs) force withTime =
        (Target.struct fs, none)) := by
  have key : ∀ f : StructField F T, f.exported = false →
      processField P env force withTime f = (f, none) := by
    intro f hf
    by_cases hn : (mkFieldData force withTime f).envVarName = ""
    · simp [processField, hn]
    · have hva : validateAndSet P env (mkFieldData force withTime f) withTime =
          ((mkFieldData force withTime f).field, FieldError.nil) := by
        unfold validateAndSet
        simp [mkFieldData_isValid, mkFieldData_canSet, hf]
      simp [processField, hn, hva, mkFieldData_field]
  refine ⟨key, fun fs hfs => ?_⟩
  have hmap : fs.map (processField P env force withTime) =
      fs.map (fun f => (f, none)) :=
    List.map_congr_left (fun f hf => key f (hfs f hf))
  show (Target.struct ((fs.map (processField P env force withTime)).map Prod.fst),
      if (fs.map (processField P env force withTime)).filterMap Prod.snd = [] then
        (none : Option StructError)
      else
        some ⟨(fs.map (processField P env force withTime)).filterMap Prod.snd, ""⟩) =
    (Target.struct fs, none)
  rw [hmap]
  simp [List.filterMap_map, List.map_map, Function.comp_def]

/-- C6 witness: an unexported string field tagged with the present
variable `TEST_1` is untouched, and a struct made only of it loads
unchanged with no error. -/
theorem c6_witness :
    processField P0 envTest false false fldUnexported = (fldUnexported, none) ∧
    loadEnvVars P0 envTest (Target.struct [fldUnexported]) false false =
      (Target.struct [fldUnexported], none) :=
  ⟨(c6_unexported_never_modified P0 envTest false false).1 fldUnexported rfl,
   (c6_unexported_never_modified P0 envTest false false).2 [fldUnexported]
     (by decide)⟩

/-- C8: For every field tag of the form `NAME,DEFAULT` (nonempty,
comma-free name), only the first comma is significant: the environment
variable name is the text before the first comma and the default value is
the entire remainder, including any further commas it contains. -/
theorem c8_only_first_comma_significant (force withTime : Bool)
    (f : StructField F T) (a b : List Char) (ha : ',' ∉ a) (hne : a ≠ [])
    (htag : f.envTag = String.mk (a ++ ',' :: b)) :
    (mkFieldData force withTime f).envVarName = String.mk a ∧
    (mkFieldData force withTime f).defaultVal = String.mk b := by
  have hmk : String.mk a ≠ "" := by
    intro hcontra
    exact hne (congrArg String.data hcontra)
  unfold mkFieldData
  rw [htag, goSplitN2_append a b ha]
  simp [hmk]

/-- C8 witness: the tag `A,B,C` resolves to name `A` and default `B,C`
(the second comma is kept in the default). -/
theorem c8_witness :
    (mkFieldData false false (fldTag : StructField Unit Unit)).envVarName =
      String.mk ['A'] ∧
    (mkFieldData false false (fldTag : StructField Unit Unit)).defaultVal =
      String.mk ['B', ',', 'C'] :=
  c8_only_first_comma_significant false false fldTag ['A'] ['B', ',', 'C']
    (by decide) (by decide) (by decide)

/-- C7 (code behaviour at the failing input): a whole-structure load in
which a field fails at both stages (unparsable `TEST_BAD=abc`, no
default) still returns nil, indistinguishable from the zero-failure
outcome — the aggregate `StructError` promised by the claim is never
built because `validateAndSet` always hands back the zero `FieldError`. -/
theorem c7_failing_field_still_returns_nil :
    LoadEnvVars P0 envTest (Target.struct [fldBad, fld6]) =
      (Target.struct [fldBad, { fld6 with value := GoValue.vint 6 }], none) := by
  rfl

end Env
